import Mathlib

/-!
Shallow embedding of the srsRAN PUSCH receive pipeline:
pusch_decoder_impl.cpp (segmentation + rate-dematch + LDPC decode + transport
block CRC reconciliation) and pusch_processor_impl.cpp (PDU validation,
channel-estimate DC handling, decoder-buffer routing).

External capabilities (LDPC segmenter, rate dematcher, LDPC decoder, CRC
calculators, channel estimator, demultiplexer) are dependency-injected
interfaces in the source; they are modelled here as opaque function fields of
an environment record, and the control flow of the source is translated
faithfully around them.
-/

namespace SrsranPusch

/-- Soft bits are log-likelihood ratios (log_likelihood_ratio, an int8).  The
numeric values are opaque to the control flow modelled here. -/
abbrev LLR := Int

/-- An unpacked bit sequence (one Bool per bit). -/
abbrev Bits := List Bool

/-- ldpc_base_graph_type. -/
inductive LdpcBaseGraph where
  | BG1
  | BG2
deriving DecidableEq, Repr

/-- modulation_scheme. -/
inductive ModScheme where
  | PI_2_BPSK
  | BPSK
  | QPSK
  | QAM16
  | QAM64
  | QAM256
deriving DecidableEq, Repr

/-- get_bits_per_symbol. -/
def get_bits_per_symbol : ModScheme → Nat
  | .PI_2_BPSK => 1
  | .BPSK => 1
  | .QPSK => 2
  | .QAM16 => 4
  | .QAM64 => 6
  | .QAM256 => 8

/-- The three CRC calculators held by pusch_decoder_impl::sch_crc. -/
inductive CrcKind where
  | crc16
  | crc24A
  | crc24B
deriving DecidableEq, Repr

/-- Number of bits in one byte (BITS_PER_BYTE). -/
def BITS_PER_BYTE : Nat := 8

/-- Maximum TBS that implies a 16-bit CRC (MAX_BITS_CRC16). -/
def MAX_BITS_CRC16 : Nat := 3824

/-- Number of bits in the long CRC (LONG_CRC_LENGTH). -/
def LONG_CRC_LENGTH : Nat := 24

/-- Codeblock metadata (codeblock_metadata), restricted to the fields the
decoder reads: tb_common.base_graph and the cb_specific lengths. -/
structure CbMeta where
  base_graph : LdpcBaseGraph
  full_length : Nat
  nof_crc_bits : Nat
  nof_filler_bits : Nat
  rm_length : Nat
deriving DecidableEq, Repr

/-- pusch_decoder::configuration: the fields read by on_end_softbits. -/
structure DecoderConfig where
  base_graph : LdpcBaseGraph
  rv : Nat
  mod : ModScheme
  Nref : Nat
  nof_layers : Nat
  nof_ldpc_iterations : Nat
  use_early_stop : Bool
  new_data : Bool
deriving DecidableEq, Repr

/-- segmenter_config as filled in by on_end_softbits. -/
structure SegmenterConfig where
  base_graph : LdpcBaseGraph
  rv : Nat
  mod : ModScheme
  Nref : Nat
  nof_layers : Nat
  nof_ch_symbols : Nat
deriving DecidableEq, Repr

/-- The segmenter configuration built at the top of on_end_softbits. -/
def segConfigOf (cfg : DecoderConfig) (nof_ch_symbols : Nat) : SegmenterConfig :=
  { base_graph := cfg.base_graph
    rv := cfg.rv
    mod := cfg.mod
    Nref := cfg.Nref
    nof_layers := cfg.nof_layers
    nof_ch_symbols := nof_ch_symbols }

/-- rx_softbuffer: the externally owned soft-combining state the decoder
borrows.  Per codeblock it holds the CRC-pass flag (get_codeblocks_crc), the
cached decoded message bits (get_codeblock_data_bits) and the soft-bit
accumulation buffer (get_codeblock_soft_bits). -/
structure RxSoftbuffer where
  cb_crcs : List Bool
  cb_data : List Bits
  cb_soft : List (List LLR)
deriving DecidableEq, Repr

/-- rx_softbuffer::reset_codeblocks_crc, and also srsvec::zero on the flag
span: every per-codeblock CRC flag becomes false. -/
def RxSoftbuffer.resetCrcs (sb : RxSoftbuffer) : RxSoftbuffer :=
  { sb with cb_crcs := sb.cb_crcs.map fun _ => false }

/-- The injected capabilities the decoder calls through pointers in the
source: segmenter, dematcher, LDPC decoder and CRC calculators. -/
structure DecoderEnv where
  segment : List LLR → Nat → SegmenterConfig → List (List LLR × CbMeta)
  rate_dematch : List LLR → List LLR → Bool → CbMeta → List LLR
  ldpc_decode_with_crc : List LLR → CrcKind → CbMeta → Nat → Bits × Option Nat
  ldpc_decode_no_crc : List LLR → CbMeta → Nat → Bits
  crc_calculate : CrcKind → Bits → Nat

/-- select_crc: picks the codeblock CRC calculator from the TBS (bits) and the
number of codeblocks. -/
def select_crc (tbs : Nat) (nof_blocks : Nat) : CrcKind :=
  if nof_blocks > 1 then CrcKind.crc24B
  else if tbs > MAX_BITS_CRC16 then CrcKind.crc24A
  else CrcKind.crc16

/-- get_tb_and_crc_size: TB size in bits including the aggregate CRC, which is
accounted for only when there are multiple codeblocks. -/
def get_tb_and_crc_size (tb_size : Nat) (nof_cbs : Nat) : Nat :=
  if nof_cbs > 1 then tb_size + LONG_CRC_LENGTH else tb_size

/-- get_cblk_bit_breakdown: (codeblock length, message length, data bits). -/
def get_cblk_bit_breakdown (cb_meta : CbMeta) : Nat × Nat × Nat :=
  let cb_length := cb_meta.full_length
  let inverse_rate : Nat := match cb_meta.base_graph with
    | .BG1 => 3
    | .BG2 => 5
  let msg_length := cb_length / inverse_rate
  let nof_data_bits := msg_length - cb_meta.nof_crc_bits - cb_meta.nof_filler_bits
  (cb_length, msg_length, nof_data_bits)

/-- decode_cblk: with early stop the LDPC decoder checks the CRC inline;
without it, a full-budget decode is followed by one CRC check over the
non-filler bits.  Returns the (always written) message buffer content and the
iteration count on CRC pass. -/
def decode_cblk (env : DecoderEnv) (input : List LLR) (crc : CrcKind)
    (cb_meta : CbMeta) (cfg : DecoderConfig) : Bits × Option Nat :=
  if cfg.use_early_stop then
    env.ldpc_decode_with_crc input crc cb_meta cfg.nof_ldpc_iterations
  else
    let output := env.ldpc_decode_no_crc input cb_meta cfg.nof_ldpc_iterations
    let nof_significant_bits := output.length - cb_meta.nof_filler_bits
    if env.crc_calculate crc (output.take nof_significant_bits) = 0 then
      (output, some cfg.nof_ldpc_iterations)
    else
      (output, none)

/-- srsvec::copy_offset(dst, off, src, 0, n) on unpacked bits. -/
def writeBitsAt (dst : Bits) (off : Nat) (src : Bits) (n : Nat) : Bits :=
  dst.take off ++ src.take n ++ dst.drop (off + n)

/-- One byte out of eight unpacked bits, MSB first (bit_buffer packing). -/
def packByte (bits : Bits) : Nat :=
  bits.foldl (fun acc b => 2 * acc + (if b then 1 else 0)) 0

/-- bit_buffer::get_buffer view: the packed byte sequence of a bit buffer,
eight bits per byte MSB first (a trailing partial byte sits in the high
bits). -/
def packBits : Bits → List Nat
  | [] => []
  | b0 :: b1 :: b2 :: b3 :: b4 :: b5 :: b6 :: b7 :: rest =>
    packByte [b0, b1, b2, b3, b4, b5, b6, b7] :: packBits rest
  | l => [packByte l * 2 ^ (8 - l.length)]

/-- The running state of the per-codeblock loop in on_end_softbits: the
borrowed softbuffer, the unpacked TB assembly buffer (tmp_tb_bits), the
running bit offset, the ldpc_decoder_stats updates in order, and (as a ghost
observation) the codeblock indices for which the LDPC decoder was invoked. -/
structure CbLoopState where
  softbuf : RxSoftbuffer
  tmp_tb : Bits
  tb_offset : Nat
  iter_updates : List Nat
  decode_calls : List Nat
deriving DecidableEq, Repr

/-- The body of the per-codeblock loop of on_end_softbits for codeblock
cb_id: unconditional rate-dematch/combine into the persistent soft buffer,
decode only when the codeblock CRC flag is unset, then copy of the (cached or
fresh) message bits into the TB assembly buffer. -/
def processCodeblock (env : DecoderEnv) (cfg : DecoderConfig) (block_crc : CrcKind)
    (tb_and_crc_size : Nat) (cb_id : Nat) (cb : List LLR × CbMeta)
    (st : CbLoopState) : CbLoopState :=
  let cb_meta := cb.2
  let bd := get_cblk_bit_breakdown cb_meta
  let nof_data_bits := bd.2.2
  let message := st.softbuf.cb_data.getD cb_id []
  let free_tb_bits := tb_and_crc_size - st.tb_offset
  let nof_new_bits := min free_tb_bits nof_data_bits
  let codeblock := env.rate_dematch (st.softbuf.cb_soft.getD cb_id []) cb.1
    cfg.new_data cb_meta
  let sb1 := { st.softbuf with cb_soft := st.softbuf.cb_soft.set cb_id codeblock }
  let step :=
    if sb1.cb_crcs.getD cb_id false then
      (sb1, message, st.iter_updates, st.decode_calls)
    else
      let dec := decode_cblk env codeblock block_crc cb_meta cfg
      let sb2 := { sb1 with cb_data := sb1.cb_data.set cb_id dec.1 }
      match dec.2 with
      | some nof_iters =>
        ({ sb2 with cb_crcs := sb2.cb_crcs.set cb_id true }, dec.1,
          st.iter_updates ++ [nof_iters], st.decode_calls ++ [cb_id])
      | none =>
        (sb2, dec.1, st.iter_updates ++ [cfg.nof_ldpc_iterations],
          st.decode_calls ++ [cb_id])
  { softbuf := step.1
    tmp_tb := writeBitsAt st.tmp_tb st.tb_offset step.2.1 nof_new_bits
    tb_offset := st.tb_offset + nof_new_bits
    iter_updates := step.2.2.1
    decode_calls := step.2.2.2 }

/-- The per-codeblock loop of on_end_softbits over the segmented codeblocks. -/
def decodeLoop (env : DecoderEnv) (cfg : DecoderConfig) (block_crc : CrcKind)
    (tb_and_crc_size : Nat) (cbs : List (List LLR × CbMeta))
    (st0 : CbLoopState) : CbLoopState :=
  cbs.enum.foldl
    (fun st p => processCodeblock env cfg block_crc tb_and_crc_size p.1 p.2 st) st0

/-- std::all_of over the codeblock CRC flags. -/
def allCrcsOk (l : List Bool) : Bool := l.all fun a => a

/-- Outcome of the transport-block CRC decision at the end of
on_end_softbits.  tb_crc_call is a ghost observation: some (kind, bits) when
an aggregate TB CRC was calculated, recording which calculator ran on which
bits. -/
structure TbDecision where
  dest : List Nat
  softbuf : RxSoftbuffer
  tb_crc_ok : Bool
  tb_crc_call : Option (CrcKind × Bits)
deriving DecidableEq, Repr

/-- The transport-block CRC decision block at the end of on_end_softbits:
single codeblock reuses its flag and copies on success; multiple codeblocks
check the aggregate 24A CRC only when every flag is set (copying to the
destination before the check, as the source does), and reset every flag on a
mismatch. -/
def tbCrcDecision (env : DecoderEnv) (nof_cbs : Nat) (transport_block : List Nat)
    (st : CbLoopState) : TbDecision :=
  if nof_cbs = 1 then
    if st.softbuf.cb_crcs.getD 0 false then
      { dest := (packBits st.tmp_tb).take transport_block.length
        softbuf := st.softbuf
        tb_crc_ok := true
        tb_crc_call := none }
    else
      { dest := transport_block
        softbuf := st.softbuf
        tb_crc_ok := false
        tb_crc_call := none }
  else if allCrcsOk st.softbuf.cb_crcs then
    let dest := (packBits st.tmp_tb).take transport_block.length
    if env.crc_calculate CrcKind.crc24A st.tmp_tb = 0 then
      { dest := dest
        softbuf := st.softbuf
        tb_crc_ok := true
        tb_crc_call := some (CrcKind.crc24A, st.tmp_tb) }
    else
      { dest := dest
        softbuf := st.softbuf.resetCrcs
        tb_crc_ok := false
        tb_crc_call := some (CrcKind.crc24A, st.tmp_tb) }
  else
    { dest := transport_block
      softbuf := st.softbuf
      tb_crc_ok := false
      tb_crc_call := none }

/-- Result of one on_end_softbits call: the destination transport-block byte
buffer content, the softbuffer as left behind, and the reported statistics
(pusch_decoder_result), plus the ghost observations block_crc_used,
tb_crc_call and decode_calls. -/
structure EndResult where
  dest : List Nat
  softbuf : RxSoftbuffer
  tb_crc_ok : Bool
  nof_codeblocks_total : Nat
  iter_updates : List Nat
  decode_calls : List Nat
  block_crc_used : CrcKind
  tb_crc_call : Option (CrcKind × Bits)
deriving DecidableEq, Repr

/-- unsigned tb_size = transport_block.size() * BITS_PER_BYTE. -/
def tb_size_bits (transport_block : List Nat) : Nat :=
  transport_block.length * BITS_PER_BYTE

/-- The segmenter call of on_end_softbits: the accumulated LLRs are split into
per-codeblock LLR spans and metadata. -/
def segOut (env : DecoderEnv) (cfg : DecoderConfig) (tb_size : Nat)
    (softbits : List LLR) : List (List LLR × CbMeta) :=
  env.segment softbits tb_size
    (segConfigOf cfg (softbits.length / get_bits_per_symbol cfg.mod))

/-- The reset of the per-codeblock CRC flags when new data is flagged. -/
def prepSoftbuffer (cfg : DecoderConfig) (sb : RxSoftbuffer) : RxSoftbuffer :=
  if cfg.new_data then sb.resetCrcs else sb

/-- The state of on_end_softbits after the per-codeblock loop, starting from
the zero-initialised TB assembly buffer and the CRC flags as prepared by
prepSoftbuffer. -/
def loopOut (env : DecoderEnv) (cfg : DecoderConfig) (tb_size : Nat)
    (sb : RxSoftbuffer) (softbits : List LLR) : CbLoopState :=
  let cbs := segOut env cfg tb_size softbits
  decodeLoop env cfg (select_crc tb_size cbs.length)
    (get_tb_and_crc_size tb_size cbs.length) cbs
    { softbuf := prepSoftbuffer cfg sb
      tmp_tb := List.replicate (get_tb_and_crc_size tb_size cbs.length) false
      tb_offset := 0
      iter_updates := []
      decode_calls := [] }

/-- pusch_decoder_impl::on_end_softbits, as a function of the injected
capabilities, the configuration set by new_data, the destination
transport-block bytes, the borrowed softbuffer and the accumulated soft
bits. -/
def on_end_softbits (env : DecoderEnv) (cfg : DecoderConfig)
    (transport_block : List Nat) (sb : RxSoftbuffer) (softbits : List LLR) :
    EndResult :=
  let cbs := segOut env cfg (tb_size_bits transport_block) softbits
  let st := loopOut env cfg (tb_size_bits transport_block) sb softbits
  let d := tbCrcDecision env cbs.length transport_block st
  { dest := d.dest
    softbuf := d.softbuf
    tb_crc_ok := d.tb_crc_ok
    nof_codeblocks_total := cbs.length
    iter_updates := st.iter_updates
    decode_calls := st.decode_calls
    block_crc_used := select_crc (tb_size_bits transport_block) cbs.length
    tb_crc_call := d.tb_crc_call }

/-- The streaming accumulation state of the decoder buffer: the first
softbits_count soft bits of softbits_buffer. -/
structure DecoderBufferState where
  softbits : List LLR
deriving DecidableEq, Repr

/-- pusch_decoder_impl::on_new_softbits: append the chunk to the accumulated
soft bits (the source copies into the next block view unless the chunk
already aliases it, and advances softbits_count). -/
def on_new_softbits (st : DecoderBufferState) (chunk : List LLR) :
    DecoderBufferState :=
  { softbits := st.softbits ++ chunk }

/-! ### PUSCH processor (pusch_processor_impl.cpp) -/

/-- cyclic_prefix: normal or extended. -/
inductive CpKind where
  | normal
  | extended
deriving DecidableEq, Repr

/-- get_nsymb_per_slot. -/
def get_nsymb_per_slot : CpKind → Nat
  | .normal => 14
  | .extended => 12

/-- Number of resource elements per PRB (NRE). -/
def NRE : Nat := 12

/-- channel_estimate::channel_estimate_dimensions (ce_dims): the maximum
dimensions the validator and processor were built for. -/
structure CeDims where
  nof_prb : Nat
  nof_symbols : Nat
  nof_rx_ports : Nat
  nof_tx_layers : Nat
deriving DecidableEq, Repr

/-- pdu_t::uci: the UCI field lengths the validator reads. -/
structure UciConfig where
  nof_harq_ack : Nat
  nof_csi_part1 : Nat
  nof_csi_part2 : Nat
deriving DecidableEq, Repr

/-- pdu_t::codeword (optional): the fields the processor forwards to the
decoder configuration. -/
structure CodewordDesc where
  rv : Nat
  ldpc_base_graph : LdpcBaseGraph
  new_data : Bool
deriving DecidableEq, Repr

/-- pusch_processor::pdu_t, restricted to the fields read by is_valid and by
the parts of process modelled here.  freq_alloc_is_bwp_valid abstracts the
verdict of pdu.freq_alloc.is_bwp_valid(bwp_start_rb, bwp_size_rb), whose
implementation is an external component. -/
structure PuschPdu where
  cp : CpKind
  bwp_start_rb : Nat
  bwp_size_rb : Nat
  nof_tx_layers : Nat
  rx_ports : List Nat
  freq_alloc_is_bwp_valid : Bool
  uci : UciConfig
  dmrs_symbol_mask : List Bool
  start_symbol_index : Nat
  nof_symbols : Nat
  dmrs_is_type1 : Bool
  nof_cdm_groups_without_data : Nat
  dc_position : Option Nat
  mcs_modulation : ModScheme
  tbs_lbrm_bytes : Nat
  codeword : Option CodewordDesc
deriving DecidableEq, Repr

/-- bounded_bitset::find_lowest(true): the lowest set-bit index, -1 if none. -/
def find_lowest (mask : List Bool) : Int :=
  match mask.findIdx? (fun b => b) with
  | some i => (i : Int)
  | none => -1

/-- bounded_bitset::find_highest(true): the highest set-bit index, -1 if
none. -/
def find_highest (mask : List Bool) : Int :=
  match mask.reverse.findIdx? (fun b => b) with
  | some i => ((mask.length - 1 - i : Nat) : Int)
  | none => -1

/-- static_cast of an int to a 32-bit unsigned. -/
def toUnsigned32 (i : Int) : Nat := (i % (2 ^ 32 : Int)).toNat

/-- bounded_bitset::none: no bit is set. -/
def bitsetNone (mask : List Bool) : Bool := !(mask.any fun b => b)

/-- pusch_processor_validator_impl::is_valid: the sequence of early-false
checks of the source, in order. -/
def is_valid (ce_dims : CeDims) (pdu : PuschPdu) : Bool :=
  let nof_symbols_slot := get_nsymb_per_slot pdu.cp
  if pdu.bwp_start_rb + pdu.bwp_size_rb > ce_dims.nof_prb then false
  else if pdu.nof_tx_layers > ce_dims.nof_tx_layers then false
  else if pdu.rx_ports.length > ce_dims.nof_rx_ports then false
  else if ¬ pdu.freq_alloc_is_bwp_valid then false
  else if pdu.uci.nof_harq_ack > 11 ∨ pdu.uci.nof_csi_part1 > 11 then false
  else if pdu.uci.nof_csi_part2 ≠ 0 then false
  else if pdu.dmrs_symbol_mask.length ≠ nof_symbols_slot then false
  else if bitsetNone pdu.dmrs_symbol_mask then false
  else if toUnsigned32 (find_lowest pdu.dmrs_symbol_mask) < pdu.start_symbol_index then
    false
  else if toUnsigned32 (find_highest pdu.dmrs_symbol_mask) ≥
      pdu.start_symbol_index + pdu.nof_symbols then
    false
  else if nof_symbols_slot < pdu.start_symbol_index + pdu.nof_symbols then false
  else if ¬ pdu.dmrs_is_type1 then false
  else if pdu.nof_cdm_groups_without_data ≠ 2 then false
  else
    match pdu.dc_position with
    | some v => decide (v < ce_dims.nof_prb * NRE)
    | none => true

/-- The validator predicates of the spec, stated as one conjunction (a
spec-side counterpart of is_valid, compared with it in claim C7). -/
def validPduSpec (ce_dims : CeDims) (pdu : PuschPdu) : Prop :=
  pdu.bwp_start_rb + pdu.bwp_size_rb ≤ ce_dims.nof_prb ∧
  pdu.nof_tx_layers ≤ ce_dims.nof_tx_layers ∧
  pdu.rx_ports.length ≤ ce_dims.nof_rx_ports ∧
  pdu.freq_alloc_is_bwp_valid = true ∧
  pdu.uci.nof_harq_ack ≤ 11 ∧
  pdu.uci.nof_csi_part1 ≤ 11 ∧
  pdu.uci.nof_csi_part2 = 0 ∧
  pdu.dmrs_symbol_mask.length = get_nsymb_per_slot pdu.cp ∧
  bitsetNone pdu.dmrs_symbol_mask = false ∧
  pdu.start_symbol_index ≤ toUnsigned32 (find_lowest pdu.dmrs_symbol_mask) ∧
  toUnsigned32 (find_highest pdu.dmrs_symbol_mask) <
    pdu.start_symbol_index + pdu.nof_symbols ∧
  pdu.start_symbol_index + pdu.nof_symbols ≤ get_nsymb_per_slot pdu.cp ∧
  pdu.dmrs_is_type1 = true ∧
  pdu.nof_cdm_groups_without_data = 2 ∧
  (∀ v, pdu.dc_position = some v → v < ce_dims.nof_prb * NRE)

/-- A complex channel coefficient (cf_t), abstracted as a pair of integers:
the processor only ever stores values into the estimate, never computes with
them, so the carrier type is opaque. -/
abbrev Cf := Int × Int

/-- The channel estimate: a coefficient per (OFDM symbol, receive port,
transmit layer, subcarrier). -/
abbrev ChEst := Nat → Nat → Nat → Nat → Cf

/-- A single store ce[dc] = v through get_symbol_ch_estimate(symbol, port,
layer). -/
def setCe (ce : ChEst) (s p l c : Nat) (v : Cf) : ChEst :=
  fun s2 p2 l2 c2 => if s2 = s ∧ p2 = p ∧ l2 = l ∧ c2 = c then v else ce s2 p2 l2 c2

/-- The direct-current handling block of pusch_processor_impl::process: when a
DC position is configured, store zero at that subcarrier for every receive
port, every transmit layer and every allocated OFDM symbol (from
start_symbol_index to start_symbol_index + nof_symbols). -/
def handle_dc (pdu : PuschPdu) (ce : ChEst) : ChEst :=
  match pdu.dc_position with
  | none => ce
  | some dc_position =>
    (List.range pdu.rx_ports.length).foldl (fun ce1 i_port =>
      (List.range pdu.nof_tx_layers).foldl (fun ce2 i_layer =>
        (List.range' pdu.start_symbol_index pdu.nof_symbols).foldl (fun ce3 i_symbol =>
          setCe ce3 i_symbol i_port i_layer dc_position (0, 0)) ce2) ce1) ce

/-- Modelled from the spec: pusch_decoder_buffer_dummy (its header is not
among the repository files given; only its use in pusch_processor_impl.cpp
is).  The spec describes it as a shared stateless no-op sink for PUSCH
transmissions without SCH data: soft bits pushed into it are discarded and it
holds no state, so its push is the identity on the (empty) state. -/
def dummy_buffer_on_new_softbits (_s : Unit) (_chunk : List LLR) : Unit := ()

/-- The injected capabilities of the processor that feed the decoder path:
the channel estimator and, standing for the demodulate/demultiplex chain, the
SCH soft-bit stream the demultiplexer delivers to the selected decoder
buffer. -/
structure ProcessorEnv where
  estimate : PuschPdu → ChEst
  demux_sch_llrs : PuschPdu → List LLR
  dec : DecoderEnv

/-- Result of one pusch_processor_impl::process call, restricted to what the
claims observe: the destination transport-block bytes, the softbuffer, the
channel estimate as handed to channel-state-information extraction, and the
ghost observation of whether decoder->new_data was invoked. -/
structure ProcessResult where
  data : List Nat
  softbuf : RxSoftbuffer
  csi_input : ChEst
  sch_decoder_invoked : Bool

/-- pusch_processor_impl::process, restricted to the channel-estimate DC
handling and the SCH data path: the channel is estimated, the DC subcarrier
is zeroed, and then the SCH soft bits are routed to the real decoder buffer
(decoder->new_data followed by the push interface ending in on_end_softbits)
when a codeword is present, and to the stateless dummy buffer otherwise. -/
def pusch_process (penv : ProcessorEnv) (dec_nof_iterations : Nat)
    (dec_enable_early_stop : Bool) (data : List Nat) (sb : RxSoftbuffer)
    (pdu : PuschPdu) : ProcessResult :=
  let ce := penv.estimate pdu
  let ce2 := handle_dc pdu ce
  match pdu.codeword with
  | some cw =>
    let cfg : DecoderConfig :=
      { base_graph := cw.ldpc_base_graph
        rv := cw.rv
        mod := pdu.mcs_modulation
        Nref := pdu.tbs_lbrm_bytes * 8
        nof_layers := pdu.nof_tx_layers
        nof_ldpc_iterations := dec_nof_iterations
        use_early_stop := dec_enable_early_stop
        new_data := cw.new_data }
    let r := on_end_softbits penv.dec cfg data sb (penv.demux_sch_llrs pdu)
    { data := r.dest
      softbuf := r.softbuf
      csi_input := ce2
      sch_decoder_invoked := true }
  | none =>
    let _ := dummy_buffer_on_new_softbits () (penv.demux_sch_llrs pdu)
    { data := data
      softbuf := sb
      csi_input := ce2
      sch_decoder_invoked := false }

/-! ### Concrete fixtures for witnesses and counterexamples -/

/-- A codeblock metadata fixture: BG1, 48 un-rate-matched bits, so a 16-bit
message with no CRC and no filler bits. -/
def metaTwoCb : CbMeta :=
  { base_graph := .BG1
    full_length := 48
    nof_crc_bits := 0
    nof_filler_bits := 0
    rm_length := 0 }

/-- A decoder environment fixture whose segmenter yields two codeblocks,
whose LDPC decoder always fails (CRC never passes) and whose CRC calculators
always report a nonzero remainder. -/
def envTwoCb : DecoderEnv :=
  { segment := fun _ _ _ => [([], metaTwoCb), ([], metaTwoCb)]
    rate_dematch := fun old _ _ _ => old
    ldpc_decode_with_crc := fun _ _ _ _ => (List.replicate 16 false, none)
    ldpc_decode_no_crc := fun _ _ _ => List.replicate 16 false
    crc_calculate := fun _ _ => 1 }

/-- A retransmission configuration fixture (new_data false, early stop). -/
def cfgRetx : DecoderConfig :=
  { base_graph := .BG1
    rv := 0
    mod := .QPSK
    Nref := 0
    nof_layers := 1
    nof_ldpc_iterations := 6
    use_early_stop := true
    new_data := false }

/-- A softbuffer fixture with both codeblock CRC flags already set. -/
def sbBothOk : RxSoftbuffer :=
  { cb_crcs := [true, true]
    cb_data := [List.replicate 16 false, List.replicate 16 false]
    cb_soft := [[], []] }

/-- A softbuffer fixture with no codeblock CRC flag set. -/
def sbNoneOk : RxSoftbuffer :=
  { cb_crcs := [false, false]
    cb_data := [List.replicate 16 false, List.replicate 16 false]
    cb_soft := [[], []] }

/-- A one-byte destination transport block holding 0xFF. -/
def tbFix : List Nat := [255]

/-- A PDU fixture: no codeword, DC position 3, single-symbol allocation
starting at symbol 1 of a 14-symbol slot, one receive port, one layer. -/
def pduFix : PuschPdu :=
  { cp := .normal
    bwp_start_rb := 0
    bwp_size_rb := 1
    nof_tx_layers := 1
    rx_ports := [0]
    freq_alloc_is_bwp_valid := true
    uci := { nof_harq_ack := 0, nof_csi_part1 := 0, nof_csi_part2 := 0 }
    dmrs_symbol_mask := List.replicate 14 true
    start_symbol_index := 1
    nof_symbols := 1
    dmrs_is_type1 := true
    nof_cdm_groups_without_data := 2
    dc_position := some 3
    mcs_modulation := .QPSK
    tbs_lbrm_bytes := 0
    codeword := none }

/-- A channel estimate fixture that is one everywhere. -/
def ceFix : ChEst := fun _ _ _ _ => (1, 0)

/-- A processor environment fixture built on ceFix and envTwoCb. -/
def penvFix : ProcessorEnv :=
  { estimate := fun _ => ceFix
    demux_sch_llrs := fun _ => []
    dec := envTwoCb }

/-! ### Theorems -/

/-- The accumulated soft bits after a sequence of on_new_softbits pushes are
the initial content followed by the concatenation of the chunks. -/
lemma foldl_on_new_softbits (st0 : DecoderBufferState) (chunks : List (List LLR)) :
    (chunks.foldl on_new_softbits st0).softbits = st0.softbits ++ chunks.flatten := by
  induction chunks generalizing st0 with
  | nil => simp
  | cons c cs ih => simp [on_new_softbits, ih]

/-- Claim C9: delivering a soft-bit stream through any sequence of
on_new_softbits chunk pushes followed by on_end_softbits yields exactly the
same decode result (destination bytes, softbuffer, tb_crc_ok and statistics)
as delivering the whole stream in a single on_new_softbits call. -/
theorem on_new_softbits_chunking_invariance (env : DecoderEnv) (cfg : DecoderConfig)
    (tb : List Nat) (sb : RxSoftbuffer) (st0 : DecoderBufferState)
    (chunks : List (List LLR)) :
    on_end_softbits env cfg tb sb (chunks.foldl on_new_softbits st0).softbits
      = on_end_softbits env cfg tb sb (on_new_softbits st0 chunks.flatten).softbits := by
  rw [foldl_on_new_softbits]
  rfl

/-- Claim C5: when new_data is set, on_end_softbits clears every
per-codeblock CRC flag of the soft-combining buffer before any codeblock is
processed (the whole call behaves as if run on the flag-cleared buffer);
when new_data is not set, the flags are retained unchanged. -/
theorem on_end_softbits_new_data_crc_reset (env : DecoderEnv) (cfg : DecoderConfig)
    (tb : List Nat) (sb : RxSoftbuffer) (llrs : List LLR) :
    on_end_softbits env cfg tb sb llrs
        = on_end_softbits env cfg tb (prepSoftbuffer cfg sb) llrs
      ∧ (prepSoftbuffer cfg sb).cb_crcs
        = (if cfg.new_data then sb.cb_crcs.map fun _ => false else sb.cb_crcs) := by
  constructor
  · have h : prepSoftbuffer cfg (prepSoftbuffer cfg sb) = prepSoftbuffer cfg sb := by
      unfold prepSoftbuffer RxSoftbuffer.resetCrcs
      cases cfg.new_data <;> simp
    simp only [on_end_softbits, loopOut, h]
  · unfold prepSoftbuffer RxSoftbuffer.resetCrcs
    cases cfg.new_data <;> simp

/-- Claim C3: the codeblock CRC calculator is the 24-bit variant B when
there is more than one codeblock, the 24-bit variant A for a single
codeblock whose transport block exceeds 3824 bits, and the 16-bit CRC
otherwise; and on_end_softbits selects it exactly so from the transport-block
bit size and the segmented codeblock count. -/
theorem select_crc_policy (tbs n : Nat) :
    (1 < n → select_crc tbs n = CrcKind.crc24B)
      ∧ (n ≤ 1 → MAX_BITS_CRC16 < tbs → select_crc tbs n = CrcKind.crc24A)
      ∧ (n ≤ 1 → tbs ≤ MAX_BITS_CRC16 → select_crc tbs n = CrcKind.crc16)
      ∧ (∀ (env : DecoderEnv) (cfg : DecoderConfig) (tb : List Nat)
          (sb : RxSoftbuffer) (llrs : List LLR),
          (on_end_softbits env cfg tb sb llrs).block_crc_used
            = select_crc (tb_size_bits tb)
                (segOut env cfg (tb_size_bits tb) llrs).length) := by
  refine ⟨?_, ?_, ?_, ?_⟩
  · intro h
    simp [select_crc, h]
  · intro h1 h2
    have hn : ¬ n > 1 := by omega
    simp [select_crc, hn, h2]
  · intro h1 h2
    have hn : ¬ n > 1 := by omega
    have ht : ¬ tbs > MAX_BITS_CRC16 := by omega
    simp [select_crc, hn, ht]
  · intro env cfg tb sb llrs
    rfl

/-- Claim C8: the transport-block-plus-CRC bit length is the destination
byte length times eight for a single codeblock, and that length plus the
24-bit CRC length for more than one codeblock. -/
theorem get_tb_and_crc_size_policy (tb : List Nat) (n : Nat) :
    (n = 1 → get_tb_and_crc_size (tb_size_bits tb) n = tb.length * BITS_PER_BYTE)
      ∧ (1 < n → get_tb_and_crc_size (tb_size_bits tb) n
          = tb.length * BITS_PER_BYTE + LONG_CRC_LENGTH) := by
  constructor
  · intro h
    subst h
    simp [get_tb_and_crc_size, tb_size_bits]
  · intro h
    simp [get_tb_and_crc_size, tb_size_bits, h]

/-- Claim C10: when the PDU carries no codeword, process leaves the
destination transport-block bytes and the softbuffer unmodified and never
invokes the decoder's new_data (the SCH soft bits go to the stateless dummy
buffer). -/
theorem pusch_process_no_codeword (penv : ProcessorEnv) (it : Nat) (es : Bool)
    (data : List Nat) (sb : RxSoftbuffer) (pdu : PuschPdu)
    (h : pdu.codeword = none) :
    (pusch_process penv it es data sb pdu).data = data
      ∧ (pusch_process penv it es data sb pdu).sch_decoder_invoked = false
      ∧ (pusch_process penv it es data sb pdu).softbuf = sb := by
  unfold pusch_process
  rw [h]
  simp

/-- Witness for claim C10 at the concrete fixture: the no-codeword PDU
leaves the one-byte destination and the softbuffer untouched. -/
theorem pusch_process_no_codeword_witness :
    (pusch_process penvFix 6 true tbFix sbBothOk pduFix).data = tbFix
      ∧ (pusch_process penvFix 6 true tbFix sbBothOk pduFix).sch_decoder_invoked = false
      ∧ (pusch_process penvFix 6 true tbFix sbBothOk pduFix).softbuf = sbBothOk :=
  pusch_process_no_codeword penvFix 6 true tbFix sbBothOk pduFix rfl

/-- Claim C4: in the per-codeblock loop body, rate-dematching/soft-combining
into the persistent soft-bit buffer happens unconditionally — also when the
codeblock's CRC flag is already set — while the LDPC decoder is invoked, and
the cached message buffer rewritten, exactly when the flag is not set. -/
theorem processCodeblock_dematch_and_decode_gate (env : DecoderEnv)
    (cfg : DecoderConfig) (crc : CrcKind) (sz : Nat) (i : Nat)
    (cb : List LLR × CbMeta) (st : CbLoopState) :
    (processCodeblock env cfg crc sz i cb st).softbuf.cb_soft
        = st.softbuf.cb_soft.set i
            (env.rate_dematch (st.softbuf.cb_soft.getD i []) cb.1 cfg.new_data cb.2)
      ∧ (processCodeblock env cfg crc sz i cb st).decode_calls
        = (if st.softbuf.cb_crcs.getD i false then st.decode_calls
            else st.decode_calls ++ [i])
      ∧ (processCodeblock env cfg crc sz i cb st).softbuf.cb_data
        = (if st.softbuf.cb_crcs.getD i false then st.softbuf.cb_data
            else st.softbuf.cb_data.set i
              (decode_cblk env
                (env.rate_dematch (st.softbuf.cb_soft.getD i []) cb.1 cfg.new_data cb.2)
                crc cb.2 cfg).1) := by
  unfold processCodeblock
  simp only [List.getD]
  by_cases hflag : st.softbuf.cb_crcs[i]?.getD false = true
  · simp [hflag]
  · cases hdec : (decode_cblk env
        (env.rate_dematch (st.softbuf.cb_soft[i]?.getD []) cb.1 cfg.new_data cb.2)
        crc cb.2 cfg).2 <;>
      simp [hflag, hdec]

/-- With a codeblock count other than one and some CRC flag unset, the TB
decision reports failure without any aggregate CRC calculation and leaves the
destination and the flags alone. -/
lemma tbCrcDecision_not_all (env : DecoderEnv) (n : Nat) (tb : List Nat)
    (st : CbLoopState) (hne : n ≠ 1) (hall : allCrcsOk st.softbuf.cb_crcs = false) :
    tbCrcDecision env n tb st =
      { dest := tb, softbuf := st.softbuf, tb_crc_ok := false, tb_crc_call := none } := by
  unfold tbCrcDecision
  simp [hne, hall]

/-- With a codeblock count other than one and every CRC flag set, the TB
decision copies the assembled bits out and calculates the aggregate 24A CRC,
resetting every flag on a mismatch. -/
lemma tbCrcDecision_all (env : DecoderEnv) (n : Nat) (tb : List Nat)
    (st : CbLoopState) (hne : n ≠ 1) (hall : allCrcsOk st.softbuf.cb_crcs = true) :
    tbCrcDecision env n tb st =
      (if env.crc_calculate CrcKind.crc24A st.tmp_tb = 0 then
        { dest := (packBits st.tmp_tb).take tb.length
          softbuf := st.softbuf
          tb_crc_ok := true
          tb_crc_call := some (CrcKind.crc24A, st.tmp_tb) }
      else
        { dest := (packBits st.tmp_tb).take tb.length
          softbuf := st.softbuf.resetCrcs
          tb_crc_ok := false
          tb_crc_call := some (CrcKind.crc24A, st.tmp_tb) }) := by
  unfold tbCrcDecision
  simp [hne, hall]

/-- Claim C1: with more than one codeblock, the aggregate 24-bit transport
block CRC is calculated, over the assembled bits, exactly when every
per-codeblock CRC flag is set after the decode loop; when it is calculated
and mismatches, every flag in the soft-combining buffer is reset to false;
and when not every flag is set, the call reports tb_crc_ok false without any
aggregate CRC calculation. -/
theorem on_end_softbits_tb_crc_policy (env : DecoderEnv) (cfg : DecoderConfig)
    (tb : List Nat) (sb : RxSoftbuffer) (llrs : List LLR)
    (h : 1 < (segOut env cfg (tb_size_bits tb) llrs).length) :
    ((on_end_softbits env cfg tb sb llrs).tb_crc_call.isSome
        = allCrcsOk (loopOut env cfg (tb_size_bits tb) sb llrs).softbuf.cb_crcs)
      ∧ (allCrcsOk (loopOut env cfg (tb_size_bits tb) sb llrs).softbuf.cb_crcs = true →
          (on_end_softbits env cfg tb sb llrs).tb_crc_call
            = some (CrcKind.crc24A, (loopOut env cfg (tb_size_bits tb) sb llrs).tmp_tb))
      ∧ (allCrcsOk (loopOut env cfg (tb_size_bits tb) sb llrs).softbuf.cb_crcs = true →
          env.crc_calculate CrcKind.crc24A
              (loopOut env cfg (tb_size_bits tb) sb llrs).tmp_tb ≠ 0 →
          ∀ b ∈ (on_end_softbits env cfg tb sb llrs).softbuf.cb_crcs, b = false)
      ∧ (allCrcsOk (loopOut env cfg (tb_size_bits tb) sb llrs).softbuf.cb_crcs = false →
          (on_end_softbits env cfg tb sb llrs).tb_crc_ok = false
            ∧ (on_end_softbits env cfg tb sb llrs).tb_crc_call = none) := by
  have hne : (segOut env cfg (tb_size_bits tb) llrs).length ≠ 1 := by omega
  have hcall : (on_end_softbits env cfg tb sb llrs).tb_crc_call
      = (tbCrcDecision env (segOut env cfg (tb_size_bits tb) llrs).length tb
          (loopOut env cfg (tb_size_bits tb) sb llrs)).tb_crc_call := rfl
  have hsb : (on_end_softbits env cfg tb sb llrs).softbuf
      = (tbCrcDecision env (segOut env cfg (tb_size_bits tb) llrs).length tb
          (loopOut env cfg (tb_size_bits tb) sb llrs)).softbuf := rfl
  have hok : (on_end_softbits env cfg tb sb llrs).tb_crc_ok
      = (tbCrcDecision env (segOut env cfg (tb_size_bits tb) llrs).length tb
          (loopOut env cfg (tb_size_bits tb) sb llrs)).tb_crc_ok := rfl
  refine ⟨?_, ?_, ?_, ?_⟩
  · cases hall : allCrcsOk (loopOut env cfg (tb_size_bits tb) sb llrs).softbuf.cb_crcs
    · rw [hcall, tbCrcDecision_not_all env _ tb _ hne hall]
      rfl
    · rw [hcall, tbCrcDecision_all env _ tb _ hne hall]
      by_cases hc : env.crc_calculate CrcKind.crc24A
          (loopOut env cfg (tb_size_bits tb) sb llrs).tmp_tb = 0 <;>
        simp [hc]
  · intro hall
    rw [hcall, tbCrcDecision_all env _ tb _ hne hall]
    by_cases hc : env.crc_calculate CrcKind.crc24A
        (loopOut env cfg (tb_size_bits tb) sb llrs).tmp_tb = 0 <;>
      simp [hc]
  · intro hall hcrc
    rw [hsb, tbCrcDecision_all env _ tb _ hne hall]
    simp only [if_neg hcrc]
    intro b hb
    simp only [RxSoftbuffer.resetCrcs, List.mem_map] at hb
    obtain ⟨a, _, hba⟩ := hb
    exact hba.symm
  · intro hall
    refine ⟨?_, ?_⟩
    · rw [hok, tbCrcDecision_not_all env _ tb _ hne hall]
    · rw [hcall, tbCrcDecision_not_all env _ tb _ hne hall]

/-- Witness for claim C1 at the concrete fixture: two codeblocks, no flag
set, so the result is failure with no aggregate CRC calculation. -/
theorem on_end_softbits_tb_crc_policy_witness :
    (on_end_softbits envTwoCb cfgRetx tbFix sbNoneOk []).tb_crc_ok = false
      ∧ (on_end_softbits envTwoCb cfgRetx tbFix sbNoneOk []).tb_crc_call = none :=
  (on_end_softbits_tb_crc_policy envTwoCb cfgRetx tbFix sbNoneOk []
    (by decide)).2.2.2 (by decide)

/-- Claim C2 counterexample: two codeblocks whose CRC flags were already set
by prior transmissions, but whose assembled transport block fails the
aggregate CRC: the decision fails (tb_crc_ok false) yet the destination
transport-block bytes are overwritten, so the destination is not left
unmodified whenever the decision fails. -/
theorem claim_dest_unmodified_on_failure_cex :
    (on_end_softbits envTwoCb cfgRetx tbFix sbBothOk []).tb_crc_ok = false
      ∧ (on_end_softbits envTwoCb cfgRetx tbFix sbBothOk []).dest ≠ tbFix := by
  decide

/-- Claim C2 (amended): the destination bytes are written exactly when the
single codeblock's CRC flag is set or when, with a codeblock count other
than one, every per-codeblock flag is set after the decode loop — including
the case in which the aggregate CRC then mismatches and the decision fails;
the destination is left unmodified when the single codeblock's CRC fails or
when some flag is unset with multiple codeblocks. -/
theorem on_end_softbits_dest_write_policy (env : DecoderEnv) (cfg : DecoderConfig)
    (tb : List Nat) (sb : RxSoftbuffer) (llrs : List LLR) :
    (on_end_softbits env cfg tb sb llrs).dest
      = (if (segOut env cfg (tb_size_bits tb) llrs).length = 1 then
          (if (loopOut env cfg (tb_size_bits tb) sb llrs).softbuf.cb_crcs.getD 0 false then
            (packBits (loopOut env cfg (tb_size_bits tb) sb llrs).tmp_tb).take tb.length
          else tb)
        else if allCrcsOk (loopOut env cfg (tb_size_bits tb) sb llrs).softbuf.cb_crcs then
          (packBits (loopOut env cfg (tb_size_bits tb) sb llrs).tmp_tb).take tb.length
        else tb) := by
  have hdest : (on_end_softbits env cfg tb sb llrs).dest
      = (tbCrcDecision env (segOut env cfg (tb_size_bits tb) llrs).length tb
          (loopOut env cfg (tb_size_bits tb) sb llrs)).dest := rfl
  rw [hdest]
  unfold tbCrcDecision
  split_ifs <;> rfl

/-- Pointwise effect of the innermost DC loop (over OFDM symbols, at a fixed
port and layer). -/
lemma symFold_apply (p0 l0 dc : Nat) (v : Cf) (ce : ChEst) (lst : List Nat)
    (s p l c : Nat) :
    (lst.foldl (fun ce3 i => setCe ce3 i p0 l0 dc v) ce) s p l c
      = if s ∈ lst ∧ p = p0 ∧ l = l0 ∧ c = dc then v else ce s p l c := by
  induction lst generalizing ce with
  | nil => simp
  | cons a as ih =>
    rw [List.foldl_cons, ih]
    by_cases hp : p = p0 <;> by_cases hl : l = l0 <;> by_cases hc : c = dc <;>
      by_cases hsa : s = a <;> by_cases hsas : s ∈ as <;>
        simp_all [setCe, List.mem_cons]

/-- Pointwise effect of the two inner DC loops (layers and symbols, at a
fixed port). -/
lemma layerFold_apply (p0 dc : Nat) (v : Cf) (ce : ChEst) (layers syms : List Nat)
    (s p l c : Nat) :
    (layers.foldl
        (fun ce2 j => syms.foldl (fun ce3 i => setCe ce3 i p0 j dc v) ce2) ce) s p l c
      = if s ∈ syms ∧ p = p0 ∧ l ∈ layers ∧ c = dc then v else ce s p l c := by
  induction layers generalizing ce with
  | nil => simp
  | cons a as ih =>
    rw [List.foldl_cons, ih, symFold_apply]
    by_cases hp : p = p0 <;> by_cases hc : c = dc <;> by_cases hss : s ∈ syms <;>
      by_cases hla : l = a <;> by_cases hlas : l ∈ as <;>
        simp_all [List.mem_cons]

/-- Pointwise effect of the whole DC loop nest (ports, layers, symbols). -/
lemma portFold_apply (dc : Nat) (v : Cf) (ce : ChEst) (ports layers syms : List Nat)
    (s p l c : Nat) :
    (ports.foldl
        (fun ce1 q => layers.foldl
          (fun ce2 j => syms.foldl (fun ce3 i => setCe ce3 i q j dc v) ce2) ce1)
        ce) s p l c
      = if s ∈ syms ∧ p ∈ ports ∧ l ∈ layers ∧ c = dc then v else ce s p l c := by
  induction ports generalizing ce with
  | nil => simp
  | cons a as ih =>
    rw [List.foldl_cons, ih, layerFold_apply]
    by_cases hc : c = dc <;> by_cases hss : s ∈ syms <;> by_cases hll : l ∈ layers <;>
      by_cases hpa : p = a <;> by_cases hpas : p ∈ as <;>
        simp_all [List.mem_cons]

/-- Pointwise characterisation of the DC handling block: with a configured DC
position, the estimate is zero at that subcarrier for every allocated symbol,
port index and layer index, and untouched everywhere else. -/
lemma handle_dc_apply (pdu : PuschPdu) (ce : ChEst) (dc : Nat)
    (h : pdu.dc_position = some dc) (s p l c : Nat) :
    handle_dc pdu ce s p l c
      = if s ∈ List.range' pdu.start_symbol_index pdu.nof_symbols
            ∧ p ∈ List.range pdu.rx_ports.length
            ∧ l ∈ List.range pdu.nof_tx_layers
            ∧ c = dc
        then (0, 0) else ce s p l c := by
  unfold handle_dc
  rw [h]
  exact portFold_apply dc (0, 0) ce (List.range pdu.rx_ports.length)
    (List.range pdu.nof_tx_layers)
    (List.range' pdu.start_symbol_index pdu.nof_symbols) s p l c

/-- Claim C6 counterexample: with the fixture PDU (DC position 3, allocation
starting at symbol 1 of a 14-symbol slot) and an all-ones estimate, the
estimate handed to CSI extraction is still nonzero at the DC subcarrier on
symbol 0 — a symbol of the slot outside the allocation — so the DC entry is
not zeroed across all symbols. -/
theorem claim_dc_zero_all_symbols_cex :
    pduFix.dc_position = some 3
      ∧ 0 < get_nsymb_per_slot pduFix.cp
      ∧ (pusch_process penvFix 6 true tbFix sbBothOk pduFix).csi_input 0 0 0 3 ≠ (0, 0) := by
  decide

/-- Claim C6 (amended): when the PDU carries a DC subcarrier position, the
channel estimate handed to channel-state-information extraction is zero at
that subcarrier for every allocated OFDM symbol (from start_symbol_index to
start_symbol_index + nof_symbols), every receive port and every transmit
layer of the transmission. -/
theorem pusch_process_dc_zero (penv : ProcessorEnv) (it : Nat) (es : Bool)
    (data : List Nat) (sb : RxSoftbuffer) (pdu : PuschPdu) (dc s p l : Nat)
    (hdc : pdu.dc_position = some dc)
    (hs1 : pdu.start_symbol_index ≤ s)
    (hs2 : s < pdu.start_symbol_index + pdu.nof_symbols)
    (hp : p < pdu.rx_ports.length)
    (hl : l < pdu.nof_tx_layers) :
    (pusch_process penv it es data sb pdu).csi_input s p l dc = (0, 0) := by
  have hcsi : (pusch_process penv it es data sb pdu).csi_input
      = handle_dc pdu (penv.estimate pdu) := by
    cases hcw : pdu.codeword <;> simp [pusch_process, hcw]
  rw [hcsi, handle_dc_apply pdu _ dc hdc]
  have hmem : s ∈ List.range' pdu.start_symbol_index pdu.nof_symbols := by
    have hd : s - pdu.start_symbol_index < pdu.nof_symbols := by omega
    simp only [List.mem_range']
    exact ⟨s - pdu.start_symbol_index, hd, by omega⟩
  simp [hmem, List.mem_range, hp, hl]

/-- Witness for the amended claim C6 at the concrete fixture: the allocated
symbol 1 has a zeroed DC entry. -/
theorem pusch_process_dc_zero_witness :
    (pusch_process penvFix 6 true tbFix sbBothOk pduFix).csi_input 1 0 0 3 = (0, 0) :=
  pusch_process_dc_zero penvFix 6 true tbFix sbBothOk pduFix 3 1 0 0
    (by decide) (by decide) (by decide) (by decide) (by decide)

/-- Peeling one early-false check of a validator-style if chain. -/
lemma if_false_eq_true_iff (c : Prop) [Decidable c] (rest : Bool) :
    ((if c then false else rest) = true) ↔ (¬ c ∧ rest = true) := by
  by_cases h : c <;> simp [h]

/-- Claim C7: is_valid returns true exactly when every validator predicate
holds — so any single violated predicate (BWP bound, layer or port maxima,
frequency allocation, a UCI field over 11 bits, nonzero CSI Part 2, a DM-RS
mask of the wrong length or with no set bit, DM-RS symbols outside the
allocation, an allocation past the slot end, a DM-RS type other than 1, a
CDM-group count other than 2, or a DC position at or beyond nof_prb * 12)
makes it return false, and a PDU satisfying all of them makes it return
true. -/
theorem is_valid_iff_spec (d : CeDims) (p : PuschPdu) :
    is_valid d p = true ↔ validPduSpec d p := by
  unfold is_valid validPduSpec
  simp only [if_false_eq_true_iff]
  constructor
  · rintro ⟨n1, n2, n3, n4, n5, n6, n7, n8, n9, n10, n11, n12, n13, hm⟩
    push_neg at n5
    refine ⟨by omega, by omega, by omega, by simpa using n4, by omega, by omega,
      by omega, by omega, by simpa using n8, by omega, by omega, by omega,
      by simpa using n12, by omega, ?_⟩
    intro v hv
    rw [hv] at hm
    simpa using hm
  · rintro ⟨c1, c2, c3, c4, c5, c6, c7, c8, c9, c10, c11, c12, c13, c14, c15⟩
    refine ⟨by omega, by omega, by omega, by simp [c4], by push_neg; omega, by omega,
      by omega, by simp [c9], by omega, by omega, by omega, by simp [c13],
      by omega, ?_⟩
    cases hdc : p.dc_position with
    | none => simp
    | some v => simpa using c15 v hdc

end SrsranPusch
